import Mathlib

/-
  Verification of the sigfox-aws message ingestion core
  (src/sigfoxCallback/index.js and src/index.js).

  Modelling conventions:
  * JavaScript strings are modelled as lists of character code points
    (List Nat); the device ids and payloads handled by this program are
    ASCII, and the case conversions of JS are modelled on the ASCII range.
  * JavaScript numbers occurring on the modelled paths are integers or the
    NaN sentinel; they are modelled by the inductive JSNum.  IEEE float
    values produced by parseFloat are never inspected by the modelled
    logic, so a parseFloat result is modelled as an opaque tag carrying
    its source text.
  * JavaScript objects are modelled as maps from keys to optional values;
    an absent key is none, matching the undefined of JS.  Mutation is
    modelled where a claim requires it by an explicit heap (a list of
    objects addressed by index), with one heap write per mutating
    statement of the source.
-/

namespace SigfoxAws

/-- Character codes of a Lean string literal; used to transcribe the string
literals of the JavaScript source. -/
def strToCodes (s : String) : List Nat := s.data.map Char.toNat

/-- A JavaScript string, as a list of character code points. -/
abbrev JSStr := List Nat

/-- Model of the JS String.prototype.toUpperCase on one ASCII character. -/
def jsToUpperChar (c : Nat) : Nat := if 97 ≤ c ∧ c ≤ 122 then c - 32 else c

/-- Model of the JS String.prototype.toUpperCase (ASCII range). -/
def jsToUpper (s : JSStr) : JSStr := s.map jsToUpperChar

/-- Model of the JS String.prototype.toLowerCase on one ASCII character. -/
def jsToLowerChar (c : Nat) : Nat := if 65 ≤ c ∧ c ≤ 90 then c + 32 else c

/-- Model of the JS String.prototype.toLowerCase (ASCII range). -/
def jsToLower (s : JSStr) : JSStr := s.map jsToLowerChar

/-- A JavaScript number on the modelled paths: a mathematical integer or
the NaN sentinel produced by a failed parse. -/
inductive JSNum where
  | nan : JSNum
  | int (n : Int) : JSNum
  deriving DecidableEq

/-- JS multiplication: NaN propagates. -/
def jsMul : JSNum → JSNum → JSNum
  | .int a, .int b => .int (a * b)
  | _, _ => .nan

/-- JS subtraction: NaN propagates. -/
def jsSub : JSNum → JSNum → JSNum
  | .int a, .int b => .int (a - b)
  | _, _ => .nan

/-- JS greater-than: every comparison involving NaN is false. -/
def jsGt : JSNum → JSNum → Bool
  | .int a, .int b => a > b
  | _, _ => false

/-- JS truthiness of a number: 0 and NaN are falsy. -/
def jsTruthyNum : JSNum → Bool
  | .nan => false
  | .int n => n != 0

/-- A JavaScript value as it occurs in the message body objects of the
program: a string, a number, a boolean, or a parseFloat result.  The
float constructor carries the source text of the parse; IEEE semantics
are not modelled because no modelled code path inspects a float value. -/
inductive JSValue where
  | str (s : JSStr) : JSValue
  | num (n : JSNum) : JSValue
  | bool (b : Bool) : JSValue
  | float (source : JSStr) : JSValue
  deriving DecidableEq

/-- Decimal rendering of a JS number, for template literals. -/
def numToCodes : JSNum → JSStr
  | .nan => strToCodes "NaN"
  | .int n => strToCodes (toString n)

/-- JS string coercion of a value (template literals, parseInt argument).
The float case returns the source text of the parse, an approximation
that no modelled claim depends on. -/
def jsToCodes : JSValue → JSStr
  | .str s => s
  | .num n => numToCodes n
  | .bool true => strToCodes "true"
  | .bool false => strToCodes "false"
  | .float s => s

/-- JS truthiness of a value.  The empty string, 0 and NaN are falsy.  A
float is treated as truthy: no modelled code path ever tests the
truthiness of a parseFloat result. -/
def jsTruthyV : JSValue → Bool
  | .str s => !s.isEmpty
  | .num n => jsTruthyNum n
  | .bool b => b
  | .float _ => true

/-- Model of the JS parseInt(s, 10) on a code point list: skip leading
whitespace, read an optional sign, then the longest prefix of decimal
digits; if that prefix is empty the result is NaN. -/
def parseIntCodes (s : JSStr) : JSNum :=
  let s1 := s.dropWhile (fun c => c = 32 ∨ (9 ≤ c ∧ c ≤ 13))
  match s1 with
  | 45 :: rest =>
    let ds := rest.takeWhile (fun c => 48 ≤ c ∧ c ≤ 57)
    if ds.isEmpty then .nan
    else .int (-(ds.foldl (fun a c => a * 10 + ((c : Int) - 48)) 0))
  | 43 :: rest =>
    let ds := rest.takeWhile (fun c => 48 ≤ c ∧ c ≤ 57)
    if ds.isEmpty then .nan
    else .int (ds.foldl (fun a c => a * 10 + ((c : Int) - 48)) 0)
  | _ =>
    let ds := s1.takeWhile (fun c => 48 ≤ c ∧ c ≤ 57)
    if ds.isEmpty then .nan
    else .int (ds.foldl (fun a c => a * 10 + ((c : Int) - 48)) 0)

/-- Model of the JS parseInt(v, 10) on an arbitrary value: the argument is
coerced to a string first.  For a value that is already an integral
number the decimal round trip returns the same integer, and the string
coercion of NaN has no digit prefix, so those two cases are given
directly. -/
def parseIntJS : JSValue → JSNum
  | .str s => parseIntCodes s
  | .num (.int n) => .int n
  | .num .nan => .nan
  | .bool _ => .nan
  | .float s => parseIntCodes s

/-- parseBool of src/sigfoxCallback/index.js lines 227-230: strict
equality of the value with the string literal true. -/
def parseBool (v : JSValue) : Bool := v = .str (strToCodes "true")

/-- A JavaScript object: a map from property keys to optional values.
An absent property is none. -/
def JSObj := String → Option JSValue

/-- Property read. -/
def objGet (o : JSObj) (k : String) : Option JSValue := o k

/-- The empty object literal. -/
def objEmpty : JSObj := fun _ => none

/-- Property write. -/
def objSet (o : JSObj) (k : String) (v : JSValue) : JSObj :=
  fun k' => if k' = k then some v else o k'

/-- Property delete. -/
def objDelete (o : JSObj) (k : String) : JSObj :=
  fun k' => if k' = k then none else o k'

theorem objGet_objSet_self (o : JSObj) (k : String) (v : JSValue) :
    objGet (objSet o k v) k = some v := by
  simp [objGet, objSet]

theorem objGet_objSet_ne (o : JSObj) (k k' : String) (v : JSValue) (h : k' ≠ k) :
    objGet (objSet o k v) k' = objGet o k' := by
  simp [objGet, objSet, h]

theorem objGet_objDelete_self (o : JSObj) (k : String) :
    objGet (objDelete o k) k = none := by
  simp [objGet, objDelete]

theorem objGet_objDelete_ne (o : JSObj) (k k' : String) (h : k' ≠ k) :
    objGet (objDelete o k) k' = objGet o k' := by
  simp [objGet, objDelete, h]

/-- Conversion applied to the boolean fields of the body
(src/sigfoxCallback/index.js lines 260, 267, 268). -/
def boolConv (v : JSValue) : JSValue := .bool (parseBool v)

/-- Conversion applied to the float fields of the body (lines 261, 262,
265): the parseFloat result, represented by its source text. -/
def floatConv (v : JSValue) : JSValue := .float (jsToCodes v)

/-- Conversion applied to the integer fields of the body (lines 263, 264,
266). -/
def intConv (v : JSValue) : JSValue := .num (parseIntJS v)

/-- One statement of the form: if (body.k) body.k = f(body.k).  The field
is rewritten only when present and truthy. -/
def condConvObj (b : JSObj) (k : String) (f : JSValue → JSValue) : JSObj :=
  match objGet b k with
  | some v => if jsTruthyV v then objSet b k (f v) else b
  | none => b

/-- The time block of parseSIGFOXMessage (src/sigfoxCallback/index.js
lines 252-258): when body.time is truthy, parse it, store the timestamp
string and baseStationTime, and delete the time field. -/
def timeBlockObj (b : JSObj) : JSObj :=
  match objGet b "time" with
  | some v =>
    if jsTruthyV v then
      let t := parseIntJS v
      objDelete
        (objSet
          (objSet (objSet b "time" (.num t))
            "timestamp" (.str (numToCodes (jsMul t (.int 1000)))))
          "baseStationTime" (.num t))
        "time"
    else b
  | none => b

/-- The field conversion sequence of parseSIGFOXMessage (lines 260-268),
in source order. -/
def convertFields (b : JSObj) : JSObj :=
  condConvObj
    (condConvObj
      (condConvObj
        (condConvObj
          (condConvObj
            (condConvObj
              (condConvObj
                (condConvObj
                  (condConvObj b "duplicate" boolConv)
                  "snr" floatConv)
                "avgSnr" floatConv)
              "lat" intConv)
            "lng" intConv)
          "rssi" floatConv)
        "seqNumber" intConv)
      "ack" boolConv)
    "longPolling" boolConv

/-- The value computed by parseSIGFOXMessage for its result object: the
time block followed by the field conversions, applied to a copy of the
input.  The heap version below shows the mutation discipline; this pure
form is proved to agree with it. -/
def parseSIGFOXMessagePure (b : JSObj) : JSObj := convertFields (timeBlockObj b)

/-- A heap of JavaScript objects, addressed by allocation index. -/
abbrev Heap := List JSObj

/-- Read the object at an address (the empty object for a dangling
address, which the modelled code never produces). -/
def heapGet (h : Heap) (r : Nat) : JSObj := (List.get? h r).getD objEmpty

/-- Overwrite the object at an address. -/
def heapSet (h : Heap) (r : Nat) (o : JSObj) : Heap := List.set h r o

theorem heapGet_heapSet_ne (h : Heap) (r r' : Nat) (o : JSObj) (hne : r' ≠ r) :
    heapGet (heapSet h r o) r' = heapGet h r' := by
  unfold heapGet heapSet
  rw [List.get?_set_ne _ _ (fun e => hne e.symm)]

theorem heapGet_heapSet_self (h : Heap) (r : Nat) (o : JSObj) (hr : r < List.length h) :
    heapGet (heapSet h r o) r = o := by
  unfold heapGet heapSet
  rw [List.get?_set_eq_of_lt _ hr]
  rfl

theorem heapGet_append_lt (h h' : Heap) (r : Nat) (hr : r < List.length h) :
    heapGet (h ++ h') r = heapGet h r := by
  unfold heapGet
  rw [List.get?_append hr]

theorem heapGet_append_self (h : Heap) (o : JSObj) :
    heapGet (h ++ [o]) (List.length h) = o := by
  unfold heapGet
  rw [List.get?_concat_length]
  rfl

/-- parseSIGFOXMessage of src/sigfoxCallback/index.js lines 232-270, at
statement granularity over an explicit heap.  The first statement clones
the input object (Object.assign with an empty target); every following
statement reads and writes only the clone.  Returns the updated heap and
the address of the result object. -/
def parseSIGFOXMessage (h0 : Heap) (body0 : Nat) : Heap × Nat :=
  let bodyRef := List.length h0
  let h1 := h0 ++ [heapGet h0 body0]
  let h2 := heapSet h1 bodyRef (timeBlockObj (heapGet h1 bodyRef))
  let h3 := heapSet h2 bodyRef (condConvObj (heapGet h2 bodyRef) "duplicate" boolConv)
  let h4 := heapSet h3 bodyRef (condConvObj (heapGet h3 bodyRef) "snr" floatConv)
  let h5 := heapSet h4 bodyRef (condConvObj (heapGet h4 bodyRef) "avgSnr" floatConv)
  let h6 := heapSet h5 bodyRef (condConvObj (heapGet h5 bodyRef) "lat" intConv)
  let h7 := heapSet h6 bodyRef (condConvObj (heapGet h6 bodyRef) "lng" intConv)
  let h8 := heapSet h7 bodyRef (condConvObj (heapGet h7 bodyRef) "rssi" floatConv)
  let h9 := heapSet h8 bodyRef (condConvObj (heapGet h8 bodyRef) "seqNumber" intConv)
  let h10 := heapSet h9 bodyRef (condConvObj (heapGet h9 bodyRef) "ack" boolConv)
  let h11 := heapSet h10 bodyRef (condConvObj (heapGet h10 bodyRef) "longPolling" boolConv)
  (h11, bodyRef)

/-- Device id computed by main for the message envelope
(src/sigfoxCallback/index.js lines 337-341): the body device id when
present and truthy, else the query device id when truthy, else null;
whichever source is used is upper-cased unconditionally. -/
def envelopeDeviceId (bodyDevice queryDevice : Option JSStr) : Option JSStr :=
  match bodyDevice with
  | some s =>
    if s.isEmpty then
      match queryDevice with
      | some q => if q.isEmpty then none else some (jsToUpper q)
      | none => none
    else some (jsToUpper s)
  | none =>
    match queryDevice with
    | some q => if q.isEmpty then none else some (jsToUpper q)
    | none => none

/-- Device id normalization of the device shadow operations
(src/index.js lines 273-275 and the identical lines of getDeviceState and
updateDeviceState): ids longer than 6 characters are device names and are
kept verbatim, shorter ids are upper-cased. -/
def shadowDeviceName (s : JSStr) : JSStr :=
  if 6 < s.length then s else jsToUpper s

/-- createDevice of src/index.js lines 270-275, restricted to the thing
name computation: a falsy device id is the missing_deviceid error,
otherwise the normalized name. -/
def createDevice (device0 : Option JSStr) : Except JSStr JSStr :=
  match device0 with
  | none => .error (strToCodes "missing_deviceid")
  | some s =>
    if s.isEmpty then .error (strToCodes "missing_deviceid")
    else .ok (shadowDeviceName s)

/-- A value of the downlink response mapping: noData or a downlink
payload. -/
inductive DownlinkValue where
  | noData : DownlinkValue
  | downlinkData (payload : JSStr) : DownlinkValue
  deriving DecidableEq

/-- The response key of getResponse (src/sigfoxCallback/index.js line
156): a falsy device id falls back to the missing_device sentinel. -/
def responseKey (device0 : Option JSStr) : JSStr :=
  match device0 with
  | some s => if s.isEmpty then strToCodes "missing_device" else s
  | none => strToCodes "missing_device"

/-- The character test of the downlink validator (line 168): a character
is rejected when it is below the digit zero, above the letter f, or
strictly between the digit nine and the letter a. -/
def badHexChar (c : Nat) : Bool :=
  decide (c < 48 ∨ 102 < c ∨ (57 < c ∧ c < 97))

/-- The hardcoded downlink result of line 165. -/
def hardcodedResult : JSStr := strToCodes "0123456789abcdef"

/-- getResponse of src/sigfoxCallback/index.js lines 150-174,
parameterized by the candidate downlink payload (the deployed code passes
hardcodedResult).  When the raw ack field is the boolean false or the
string false, the caller is told there is no downlink data; otherwise the
payload is validated (length 16, only lowercase hex digits after
lower-casing) and returned, keyed by the response key. -/
def getResponse (device0 : Option JSStr) (ackRaw : Option JSValue) (result : JSStr) :
    Except JSStr (List (JSStr × DownlinkValue)) :=
  let device := responseKey device0
  if ackRaw = some (.bool false) ∨ ackRaw = some (.str (strToCodes "false")) then
    .ok [(device, .noData)]
  else if result.length ≠ 16 then
    .error (strToCodes "Result must be 8 bytes")
  else
    match (jsToLower result).find? badHexChar with
    | some c => .error (strToCodes "Invalid hex digit in result: " ++ [c])
    | none => .ok [(device, .downlinkData result)]

/-- A logical queue selector (device, type): both null denotes the
catch-all queue of the AWS mode. -/
structure QueueTarget where
  device : Option JSStr
  type : Option JSStr
  deriving DecidableEq

/-- JS truthiness of a string-or-null variable. -/
def jsTruthyStrOpt : Option JSStr → Bool
  | some s => !s.isEmpty
  | none => false

/-- Queue target resolution of saveMessage (src/sigfoxCallback/index.js
lines 197-207): on Google Cloud the catch-all-by-device-class queue, then
the type queue when type is truthy, then the device queue when device is
truthy; on AWS the single catch-all queue. -/
def queuesFor (gc aws : Bool) (device dtype : Option JSStr) : List QueueTarget :=
  if gc then
    [⟨some (strToCodes "all"), none⟩]
      ++ (if jsTruthyStrOpt dtype then [⟨none, dtype⟩] else [])
      ++ (if jsTruthyStrOpt device then [⟨device, none⟩] else [])
  else if aws then [⟨none, none⟩]
  else []

/-- The message envelope composed by saveMessage (line 195) and returned
with the dispatch flag (line 223). -/
structure Envelope where
  device : Option JSStr
  type : Option JSStr
  body : JSObj
  query : JSObj
  rootTraceId : JSStr
  isDispatched : Bool

/-- Outcome of one scloud.publishMessage call, supplied by the queue
transport environment. -/
inductive PubOutcome where
  | success : PubOutcome
  | failure (e : JSStr) : PubOutcome
  deriving DecidableEq

/-- One publish promise with its catch handler (lines 212-216): a failed
publish is logged and its error value returned, so the promise settles
successfully either way. -/
def caughtPublish (pub : QueueTarget → PubOutcome) (q : QueueTarget) : Except JSStr JSStr :=
  match pub q with
  | .success => .ok (strToCodes "OK")
  | .failure e => .ok e

/-- Promise.all over settled outcomes: rejects when any member rejects,
otherwise resolves with the list of values. -/
def promiseAll : List (Except JSStr JSStr) → Except JSStr (List JSStr)
  | [] => .ok []
  | p :: ps =>
    match p with
    | .error e => .error e
    | .ok v =>
      match promiseAll ps with
      | .error e => .error e
      | .ok vs => .ok (v :: vs)

/-- saveMessage of src/sigfoxCallback/index.js lines 176-225: resolve the
queue targets, build the envelope (updateMessageHistory is the external
collaborator hist), start one caught publish per target, await them all,
and return the envelope with isDispatched set.  The returned list records
the publish attempted for each target. -/
def saveMessage (pub : QueueTarget → PubOutcome) (hist : Envelope → Envelope)
    (gc aws : Bool) (device dtype : Option JSStr) (body query : JSObj)
    (rootTraceId : JSStr) :
    Except JSStr (List (QueueTarget × Except JSStr JSStr) × Envelope) :=
  let queues := queuesFor gc aws device dtype
  let message := hist ⟨device, dtype, body, query, rootTraceId, false⟩
  let attempts := queues.map (fun q => (q, caughtPublish pub q))
  match promiseAll (attempts.map (fun a => a.2)) with
  | .error e => .error e
  | .ok _ => .ok (attempts, { message with isDispatched := true })

/-- The stale message error of line 286, carrying the rendered age. -/
def tooOldMsg (age : JSNum) : JSStr := strToCodes "too_old: " ++ numToCodes age

/-- The freshness guard of task (src/sigfoxCallback/index.js lines
280-288): on AWS, when the parsed baseStationTime of the body is truthy,
recover it with parseInt, compute the age in milliseconds against the
clock value now, and reject when the age exceeds five minutes. -/
def freshnessGuard (aws : Bool) (now : Int) (body : JSObj) : Except JSStr Unit :=
  match objGet body "baseStationTime" with
  | some v =>
    if aws && jsTruthyV v then
      let baseStationTime := parseIntJS v
      let age := jsSub (.int now) (jsMul baseStationTime (.int 1000))
      if jsGt age (.int (5 * 60 * 1000)) then .error (tooOldMsg age) else .ok ()
    else .ok ()
  | none => .ok ()

/-- task of src/sigfoxCallback/index.js lines 272-305, up to and
including the queue dispatch: normalize the body, run the freshness
guard, and on success dispatch through saveMessage.  The first component
records the publish attempts; a rejected guard reaches no publish call.
The trailing response, logging and trace flush chain is the external
collaborator boundary and is modelled separately by getResponse. -/
def task (gc aws : Bool) (now : Int) (pub : QueueTarget → PubOutcome)
    (hist : Envelope → Envelope) (device dtype : Option JSStr)
    (body0 query : JSObj) (rootTraceId : JSStr) :
    List (QueueTarget × Except JSStr JSStr) × Except JSStr Envelope :=
  let body := parseSIGFOXMessagePure body0
  match freshnessGuard aws now body with
  | .error e => ([], .error e)
  | .ok _ =>
    match saveMessage pub hist gc aws device dtype body query rootTraceId with
    | .ok (attempts, env) => (attempts, .ok env)
    | .error e => ([], .error e)

theorem objGet_condConvObj_ne (b : JSObj) (k k' : String) (f : JSValue → JSValue)
    (h : k' ≠ k) :
    objGet (condConvObj b k f) k' = objGet b k' := by
  unfold condConvObj
  cases hv : objGet b k with
  | none => rfl
  | some v =>
    by_cases ht : jsTruthyV v
    · simp [ht, objGet_objSet_ne _ _ _ _ h]
    · simp [ht]

theorem objGet_condConvObj_self (b : JSObj) (k : String) (f : JSValue → JSValue) :
    objGet (condConvObj b k f) k =
      match objGet b k with
      | some v => if jsTruthyV v then some (f v) else some v
      | none => none := by
  unfold condConvObj
  cases hv : objGet b k with
  | none => exact hv
  | some v =>
    by_cases ht : jsTruthyV v
    · simp [ht, objGet_objSet_self]
    · simp [ht, hv]

theorem objGet_timeBlockObj_ne (b : JSObj) (k : String) (h1 : k ≠ "time")
    (h2 : k ≠ "timestamp") (h3 : k ≠ "baseStationTime") :
    objGet (timeBlockObj b) k = objGet b k := by
  unfold timeBlockObj
  cases hv : objGet b "time" with
  | none => rfl
  | some v =>
    by_cases ht : jsTruthyV v
    · simp only [ht, if_true]
      rw [objGet_objDelete_ne _ _ _ h1, objGet_objSet_ne _ _ _ _ h3,
        objGet_objSet_ne _ _ _ _ h2, objGet_objSet_ne _ _ _ _ h1]
    · simp [ht]

theorem timeBlockObj_not_truthy (b : JSObj) (v : JSValue)
    (hv : objGet b "time" = some v) (ht : jsTruthyV v = false) :
    timeBlockObj b = b := by
  unfold timeBlockObj
  rw [hv]
  simp [ht]

theorem timeBlockObj_none (b : JSObj) (hv : objGet b "time" = none) :
    timeBlockObj b = b := by
  unfold timeBlockObj
  rw [hv]

theorem objGet_timeBlockObj_time (b : JSObj) (v : JSValue)
    (hv : objGet b "time" = some v) (ht : jsTruthyV v = true) :
    objGet (timeBlockObj b) "time" = none := by
  unfold timeBlockObj
  rw [hv]
  simp only [ht, if_true]
  exact objGet_objDelete_self _ _

theorem objGet_timeBlockObj_bst (b : JSObj) (v : JSValue)
    (hv : objGet b "time" = some v) (ht : jsTruthyV v = true) :
    objGet (timeBlockObj b) "baseStationTime" = some (.num (parseIntJS v)) := by
  unfold timeBlockObj
  rw [hv]
  simp only [ht, if_true]
  rw [objGet_objDelete_ne _ _ _ (by decide), objGet_objSet_self]

theorem objGet_convertFields_ne (b : JSObj) (k : String)
    (h1 : k ≠ "duplicate") (h2 : k ≠ "snr") (h3 : k ≠ "avgSnr") (h4 : k ≠ "lat")
    (h5 : k ≠ "lng") (h6 : k ≠ "rssi") (h7 : k ≠ "seqNumber") (h8 : k ≠ "ack")
    (h9 : k ≠ "longPolling") :
    objGet (convertFields b) k = objGet b k := by
  unfold convertFields
  rw [objGet_condConvObj_ne _ _ _ _ h9, objGet_condConvObj_ne _ _ _ _ h8,
    objGet_condConvObj_ne _ _ _ _ h7, objGet_condConvObj_ne _ _ _ _ h6,
    objGet_condConvObj_ne _ _ _ _ h5, objGet_condConvObj_ne _ _ _ _ h4,
    objGet_condConvObj_ne _ _ _ _ h3, objGet_condConvObj_ne _ _ _ _ h2,
    objGet_condConvObj_ne _ _ _ _ h1]

theorem objGet_convertFields_duplicate (b : JSObj) :
    objGet (convertFields b) "duplicate" =
      match objGet b "duplicate" with
      | some v => if jsTruthyV v then some (boolConv v) else some v
      | none => none := by
  unfold convertFields
  rw [objGet_condConvObj_ne _ _ _ _ (by decide), objGet_condConvObj_ne _ _ _ _ (by decide),
    objGet_condConvObj_ne _ _ _ _ (by decide), objGet_condConvObj_ne _ _ _ _ (by decide),
    objGet_condConvObj_ne _ _ _ _ (by decide), objGet_condConvObj_ne _ _ _ _ (by decide),
    objGet_condConvObj_ne _ _ _ _ (by decide), objGet_condConvObj_ne _ _ _ _ (by decide),
    objGet_condConvObj_self]

theorem objGet_convertFields_ack (b : JSObj) :
    objGet (convertFields b) "ack" =
      match objGet b "ack" with
      | some v => if jsTruthyV v then some (boolConv v) else some v
      | none => none := by
  unfold convertFields
  rw [objGet_condConvObj_ne _ _ _ _ (by decide), objGet_condConvObj_self,
    objGet_condConvObj_ne _ _ _ _ (by decide), objGet_condConvObj_ne _ _ _ _ (by decide),
    objGet_condConvObj_ne _ _ _ _ (by decide), objGet_condConvObj_ne _ _ _ _ (by decide),
    objGet_condConvObj_ne _ _ _ _ (by decide), objGet_condConvObj_ne _ _ _ _ (by decide),
    objGet_condConvObj_ne _ _ _ _ (by decide)]

theorem objGet_convertFields_longPolling (b : JSObj) :
    objGet (convertFields b) "longPolling" =
      match objGet b "longPolling" with
      | some v => if jsTruthyV v then some (boolConv v) else some v
      | none => none := by
  unfold convertFields
  rw [objGet_condConvObj_self,
    objGet_condConvObj_ne _ _ _ _ (by decide), objGet_condConvObj_ne _ _ _ _ (by decide),
    objGet_condConvObj_ne _ _ _ _ (by decide), objGet_condConvObj_ne _ _ _ _ (by decide),
    objGet_condConvObj_ne _ _ _ _ (by decide), objGet_condConvObj_ne _ _ _ _ (by decide),
    objGet_condConvObj_ne _ _ _ _ (by decide), objGet_condConvObj_ne _ _ _ _ (by decide)]

theorem parseSIGFOXMessage_frame (h0 : Heap) (body0 r : Nat) (hr : r < List.length h0) :
    heapGet (parseSIGFOXMessage h0 body0).1 r = heapGet h0 r := by
  have hne : r ≠ List.length h0 := Nat.ne_of_lt hr
  simp only [parseSIGFOXMessage]
  repeat rw [heapGet_heapSet_ne _ _ _ _ hne]
  exact heapGet_append_lt _ _ _ hr

theorem parseSIGFOXMessage_out (h0 : Heap) (body0 : Nat) :
    heapGet (parseSIGFOXMessage h0 body0).1 (parseSIGFOXMessage h0 body0).2 =
      parseSIGFOXMessagePure (heapGet h0 body0) := by
  simp only [parseSIGFOXMessage, parseSIGFOXMessagePure, convertFields]
  repeat rw [heapGet_heapSet_self _ _ _
    (by simp only [heapSet, List.length_set, List.length_append, List.length_cons,
      List.length_nil]; omega)]
  rw [heapGet_append_self]

theorem promiseAll_ok (ps : List (Except JSStr JSStr))
    (h : ∀ p ∈ ps, ∃ v, p = .ok v) : ∃ vs, promiseAll ps = .ok vs := by
  induction ps with
  | nil => exact ⟨[], rfl⟩
  | cons p ps ih =>
    obtain ⟨v, hv⟩ := h p (List.mem_cons_self _ _)
    obtain ⟨vs, hvs⟩ := ih (fun q hq => h q (List.mem_cons_of_mem _ hq))
    exact ⟨v :: vs, by simp [promiseAll, hv, hvs]⟩

theorem caughtPublish_ok (pub : QueueTarget → PubOutcome) (q : QueueTarget) :
    ∃ v, caughtPublish pub q = .ok v := by
  unfold caughtPublish
  cases pub q with
  | success => exact ⟨_, rfl⟩
  | failure e => exact ⟨e, rfl⟩

theorem map_fst_pair (f : QueueTarget → Except JSStr JSStr) (l : List QueueTarget) :
    List.map (fun a => a.1) (List.map (fun q => (q, f q)) l) = l := by
  induction l with
  | nil => rfl
  | cons q qs ih => simp only [List.map_cons, ih]

theorem saveMessage_spec (pub : QueueTarget → PubOutcome) (hist : Envelope → Envelope)
    (gc aws : Bool) (device dtype : Option JSStr) (body query : JSObj)
    (rootTraceId : JSStr) :
    ∃ attempts env,
      saveMessage pub hist gc aws device dtype body query rootTraceId = .ok (attempts, env)
      ∧ attempts = List.map (fun q => (q, caughtPublish pub q)) (queuesFor gc aws device dtype)
      ∧ attempts.map (fun a => a.1) = queuesFor gc aws device dtype
      ∧ (∀ a ∈ attempts, ∃ v, a.2 = Except.ok v)
      ∧ env.isDispatched = true := by
  simp only [saveMessage]
  have hall : ∀ p ∈ ((queuesFor gc aws device dtype).map
      (fun q => (q, caughtPublish pub q))).map (fun a => a.2), ∃ v, p = Except.ok v := by
    intro p hp
    rw [List.map_map] at hp
    obtain ⟨q, _, hq⟩ := List.mem_map.mp hp
    obtain ⟨v, hv⟩ := caughtPublish_ok pub q
    exact ⟨v, by rw [← hq]; exact hv⟩
  obtain ⟨vs, hvs⟩ := promiseAll_ok _ hall
  rw [hvs]
  refine ⟨_, _, rfl, rfl, ?_, ?_, rfl⟩
  · exact map_fst_pair _ _
  · intro a ha
    obtain ⟨q, _, hq⟩ := List.mem_map.mp ha
    obtain ⟨v, hv⟩ := caughtPublish_ok pub q
    exact ⟨v, by rw [← hq]; exact hv⟩

theorem jsToUpperChar_idem (c : Nat) : jsToUpperChar (jsToUpperChar c) = jsToUpperChar c := by
  simp only [jsToUpperChar]
  split_ifs <;> omega

theorem jsToUpper_idem (s : JSStr) : jsToUpper (jsToUpper s) = jsToUpper s := by
  induction s with
  | nil => rfl
  | cons c cs ih =>
    simp only [jsToUpper, List.map_cons] at *
    rw [jsToUpperChar_idem, ih]

theorem length_jsToUpper (s : JSStr) : (jsToUpper s).length = s.length :=
  List.length_map _ _

theorem freshnessGuard_int (b : JSObj) (n now : Int)
    (hb : objGet b "baseStationTime" = some (.num (.int n))) (hn : n ≠ 0) :
    freshnessGuard true now b =
      if now - n * 1000 > 300000 then .error (tooOldMsg (.int (now - n * 1000)))
      else .ok () := by
  unfold freshnessGuard
  rw [hb]
  have ht : (true && jsTruthyV (.num (.int n))) = true := by
    simp [jsTruthyV, jsTruthyNum, hn]
  simp only [ht, if_true, parseIntJS, jsMul, jsSub, jsGt, decide_eq_true_eq]
  norm_num

/-- C1 (counterexample): the device id normalization is not shared between
the message envelope and the device shadow operations.  On the lowercase
seven character id abcdefg the envelope of main upper-cases although the
length exceeds 6, so the claimed rule (length above 6 left unchanged)
fails on the envelope side. -/
theorem c1_counterexample :
    envelopeDeviceId (some (strToCodes "abcdefg")) none = some (strToCodes "ABCDEFG")
    ∧ 6 < (strToCodes "abcdefg").length
    ∧ strToCodes "ABCDEFG" ≠ strToCodes "abcdefg" := by
  refine ⟨by decide, by decide, by decide⟩

/-- C1 (amended): the device shadow normalization upper-cases ids of
length at most 6, keeps longer ids verbatim, and is idempotent; the
envelope device id of main is upper-cased unconditionally (an idempotent
map as well), so the two rules disagree on lowercase ids longer than 6
characters. -/
theorem c1_amended :
    (∀ s : JSStr, s.length ≤ 6 → shadowDeviceName s = jsToUpper s)
    ∧ (∀ s : JSStr, 6 < s.length → shadowDeviceName s = s)
    ∧ (∀ s : JSStr, shadowDeviceName (shadowDeviceName s) = shadowDeviceName s)
    ∧ (∀ s : JSStr, jsToUpper (jsToUpper s) = jsToUpper s)
    ∧ (∀ bd : JSStr, envelopeDeviceId (some bd) none =
        if bd.isEmpty then none else some (jsToUpper bd)) := by
  refine ⟨fun s h => ?_, fun s h => ?_, fun s => ?_, jsToUpper_idem, fun bd => ?_⟩
  · unfold shadowDeviceName
    rw [if_neg (by omega)]
  · unfold shadowDeviceName
    rw [if_pos h]
  · by_cases h : 6 < s.length
    · have h1 : shadowDeviceName s = s := by unfold shadowDeviceName; rw [if_pos h]
      rw [h1]
      exact h1
    · have h1 : shadowDeviceName s = jsToUpper s := by unfold shadowDeviceName; rw [if_neg h]
      rw [h1]
      have h2 : ¬ 6 < (jsToUpper s).length := by rw [length_jsToUpper]; exact h
      have h3 : shadowDeviceName (jsToUpper s) = jsToUpper (jsToUpper s) := by
        unfold shadowDeviceName; rw [if_neg h2]
      rw [h3, jsToUpper_idem]
  · by_cases h : bd.isEmpty <;> simp [envelopeDeviceId, h]

/-- C1 (witness): the amended statement evaluated at concrete ids. -/
theorem c1_amended_witness :
    shadowDeviceName (strToCodes "1a2345") = jsToUpper (strToCodes "1a2345")
    ∧ shadowDeviceName (strToCodes "abcdefg") = strToCodes "abcdefg"
    ∧ shadowDeviceName (shadowDeviceName (strToCodes "1a2345")) =
        shadowDeviceName (strToCodes "1a2345")
    ∧ jsToUpper (jsToUpper (strToCodes "aBc")) = jsToUpper (strToCodes "aBc")
    ∧ envelopeDeviceId (some (strToCodes "abcdefg")) none =
        (if (strToCodes "abcdefg").isEmpty then none else some (jsToUpper (strToCodes "abcdefg"))) :=
  ⟨c1_amended.1 _ (by decide), c1_amended.2.1 _ (by decide), c1_amended.2.2.1 _,
    c1_amended.2.2.2.1 _, c1_amended.2.2.2.2 _⟩

/-- C2 (counterexample): a message whose baseStationTime is present with
value 0 is falsy, so the guard is skipped even though its age exceeds
300000 milliseconds; the claimed rule (reject iff age above 300000
whenever baseStationTime is present) fails at this input. -/
theorem c2_counterexample :
    objGet (objSet objEmpty "baseStationTime" (.num (.int 0))) "baseStationTime" =
        some (.num (.int 0))
    ∧ ((400000 : Int) - 0 * 1000 > 300000)
    ∧ freshnessGuard true 400000 (objSet objEmpty "baseStationTime" (.num (.int 0))) =
        .ok () := by
  refine ⟨by decide, by decide, rfl⟩

/-- C2 (amended): for a message whose baseStationTime is present and
truthy (a non-zero integer; zero and NaN skip the guard), the freshness
guard computes the age now minus baseStationTime times 1000 and rejects
with the stale message error exactly when the age exceeds 300000
milliseconds; at age exactly 300000 it does not reject. -/
theorem c2_amended (b : JSObj) (n now : Int)
    (hb : objGet b "baseStationTime" = some (.num (.int n))) (hn : n ≠ 0) :
    (freshnessGuard true now b = .error (tooOldMsg (.int (now - n * 1000)))
        ↔ now - n * 1000 > 300000)
    ∧ (freshnessGuard true now b = .ok () ↔ ¬ now - n * 1000 > 300000)
    ∧ (now - n * 1000 = 300000 → freshnessGuard true now b = .ok ()) := by
  rw [freshnessGuard_int b n now hb hn]
  by_cases hgt : now - n * 1000 > 300000
  · rw [if_pos hgt]
    refine ⟨⟨fun _ => hgt, fun _ => rfl⟩, ⟨fun h => absurd h (by simp), fun h => absurd hgt h⟩,
      fun h => by omega⟩
  · rw [if_neg hgt]
    refine ⟨⟨fun h => absurd h (by simp), fun h => absurd h hgt⟩, ⟨fun _ => hgt, fun _ => rfl⟩,
      fun _ => rfl⟩

/-- C2 (witness): the amended statement at baseStationTime 1 and clock
value 400000, where the age 399000 exceeds the threshold. -/
theorem c2_witness :
    (freshnessGuard true 400000 (objSet objEmpty "baseStationTime" (.num (.int 1))) =
        .error (tooOldMsg (.int (400000 - 1 * 1000))) ↔ (400000 : Int) - 1 * 1000 > 300000)
    ∧ (freshnessGuard true 400000 (objSet objEmpty "baseStationTime" (.num (.int 1))) =
        .ok () ↔ ¬ (400000 : Int) - 1 * 1000 > 300000)
    ∧ ((400000 : Int) - 1 * 1000 = 300000 →
        freshnessGuard true 400000 (objSet objEmpty "baseStationTime" (.num (.int 1))) =
          .ok ()) :=
  c2_amended (objSet objEmpty "baseStationTime" (.num (.int 1))) 1 400000 (by decide) (by decide)

/-- C5: when the normalized body carries a truthy integer baseStationTime
whose age exceeds 300000 milliseconds, task fails with the stale message
error and the publish attempt list is empty: no queue publish is reached
when the guard rejects. -/
theorem c5_stale_before_publish (gc : Bool) (now : Int) (pub : QueueTarget → PubOutcome)
    (hist : Envelope → Envelope) (device dtype : Option JSStr) (body0 query : JSObj)
    (rootTraceId : JSStr) (n : Int)
    (hb : objGet (parseSIGFOXMessagePure body0) "baseStationTime" = some (.num (.int n)))
    (hn : n ≠ 0) (hage : now - n * 1000 > 300000) :
    task gc true now pub hist device dtype body0 query rootTraceId =
      ([], .error (tooOldMsg (.int (now - n * 1000)))) := by
  simp only [task]
  rw [freshnessGuard_int _ n now hb hn, if_pos hage]

/-- C5 (witness): a body with time string 1 at clock value 400000, whose
age 399000 is stale, yields the stale error and no publish attempt. -/
theorem c5_witness :
    task false true 400000 (fun _ => PubOutcome.success) id none none
        (objSet objEmpty "time" (.str (strToCodes "1"))) objEmpty [] =
      ([], .error (tooOldMsg (.int (400000 - 1 * 1000)))) :=
  c5_stale_before_publish false 400000 (fun _ => PubOutcome.success) id none none
    (objSet objEmpty "time" (.str (strToCodes "1"))) objEmpty [] 1
    (by decide) (by decide) (by decide)

/-- C9: in the AWS mode the resolver produces exactly the single
catch-all target; in the Google Cloud mode it produces the
catch-all-by-device-class target first, then the type target exactly when
the type is truthy, then the device target exactly when the device is
truthy; in particular the type target appears only when type is non-null
and the device target only when device is non-null. -/
theorem c9_queue_targets (device dtype : Option JSStr) :
    queuesFor false true device dtype = [⟨none, none⟩]
    ∧ queuesFor true false device dtype =
        ⟨some (strToCodes "all"), none⟩ ::
          ((if jsTruthyStrOpt dtype then [⟨none, dtype⟩] else [])
            ++ (if jsTruthyStrOpt device then [⟨device, none⟩] else []))
    ∧ (dtype = none → queuesFor true false device dtype =
        ⟨some (strToCodes "all"), none⟩ ::
          (if jsTruthyStrOpt device then [⟨device, none⟩] else []))
    ∧ (device = none → queuesFor true false device dtype =
        ⟨some (strToCodes "all"), none⟩ ::
          (if jsTruthyStrOpt dtype then [⟨none, dtype⟩] else [])) := by
  refine ⟨rfl, by simp [queuesFor], fun h => ?_, fun h => ?_⟩
  · subst h
    simp [queuesFor, jsTruthyStrOpt]
  · subst h
    simp [queuesFor, jsTruthyStrOpt]

/-- C9 (witness): the resolver at a concrete device id and null type. -/
theorem c9_witness :
    queuesFor false true (some (strToCodes "1A2345")) none = [⟨none, none⟩]
    ∧ queuesFor true false (some (strToCodes "1A2345")) none =
        ⟨some (strToCodes "all"), none⟩ ::
          ((if jsTruthyStrOpt none then [⟨none, none⟩] else [])
            ++ (if jsTruthyStrOpt (some (strToCodes "1A2345")) then
                  [⟨some (strToCodes "1A2345"), none⟩] else []))
    ∧ (none = (none : Option JSStr) → queuesFor true false (some (strToCodes "1A2345")) none =
        ⟨some (strToCodes "all"), none⟩ ::
          (if jsTruthyStrOpt (some (strToCodes "1A2345")) then
            [⟨some (strToCodes "1A2345"), none⟩] else []))
    ∧ (some (strToCodes "1A2345") = (none : Option JSStr) →
        queuesFor true false (some (strToCodes "1A2345")) none =
          ⟨some (strToCodes "all"), none⟩ ::
            (if jsTruthyStrOpt (none : Option JSStr) then [⟨none, none⟩] else [])) :=
  c9_queue_targets (some (strToCodes "1A2345")) none

/-- C3: when publishing to one resolved target fails, the catch handler
converts the failure into a resolved outcome, the dispatcher still
returns successfully with one publish attempted for every target (the
failed one recorded among them, settled with the suppressed error value),
every attempt settles without throwing, and the returned envelope has
isDispatched set to true. -/
theorem c3_fanout_isolation (pub : QueueTarget → PubOutcome) (hist : Envelope → Envelope)
    (gc aws : Bool) (device dtype : Option JSStr) (body query : JSObj)
    (rootTraceId : JSStr) (qB : QueueTarget) (e : JSStr)
    (hmem : qB ∈ queuesFor gc aws device dtype) (hfail : pub qB = .failure e) :
    caughtPublish pub qB = .ok e
    ∧ ∃ attempts env,
        saveMessage pub hist gc aws device dtype body query rootTraceId = .ok (attempts, env)
        ∧ attempts.map (fun a => a.1) = queuesFor gc aws device dtype
        ∧ (qB, Except.ok e) ∈ attempts
        ∧ (∀ a ∈ attempts, ∃ v, a.2 = Except.ok v)
        ∧ env.isDispatched = true := by
  have hc : caughtPublish pub qB = .ok e := by unfold caughtPublish; rw [hfail]
  obtain ⟨attempts, env, h1, heq, h2, h3, h4⟩ :=
    saveMessage_spec pub hist gc aws device dtype body query rootTraceId
  refine ⟨hc, attempts, env, h1, h2, ?_, h3, h4⟩
  rw [heq, ← hc]
  exact List.mem_map_of_mem _ hmem

/-- C3 (witness): the Google Cloud three-target fan-out where the middle
type-specific target fails; the fan-out still settles for all three and
the dispatch flag is set. -/
theorem c3_witness :
    caughtPublish
        (fun q => if q = ⟨none, some (strToCodes "gps")⟩ then
          PubOutcome.failure (strToCodes "publish failed") else PubOutcome.success)
        ⟨none, some (strToCodes "gps")⟩ = .ok (strToCodes "publish failed")
    ∧ ∃ attempts env,
        saveMessage
            (fun q => if q = ⟨none, some (strToCodes "gps")⟩ then
              PubOutcome.failure (strToCodes "publish failed") else PubOutcome.success)
            id true false (some (strToCodes "1A2345")) (some (strToCodes "gps"))
            objEmpty objEmpty [] = .ok (attempts, env)
        ∧ attempts.map (fun a => a.1) =
            queuesFor true false (some (strToCodes "1A2345")) (some (strToCodes "gps"))
        ∧ (⟨none, some (strToCodes "gps")⟩, Except.ok (strToCodes "publish failed")) ∈ attempts
        ∧ (∀ a ∈ attempts, ∃ v, a.2 = Except.ok v)
        ∧ env.isDispatched = true :=
  c3_fanout_isolation
    (fun q => if q = ⟨none, some (strToCodes "gps")⟩ then
      PubOutcome.failure (strToCodes "publish failed") else PubOutcome.success)
    id true false (some (strToCodes "1A2345")) (some (strToCodes "gps"))
    objEmpty objEmpty [] ⟨none, some (strToCodes "gps")⟩ (strToCodes "publish failed")
    (by decide) (by decide)

theorem badHexChar_false_iff (c : Nat) :
    badHexChar c = false ↔ ((48 ≤ c ∧ c ≤ 57) ∨ (97 ≤ c ∧ c ≤ 102)) := by
  unfold badHexChar
  rw [decide_eq_false_iff_not]
  omega

/-- C4: past the ack shortcut, getResponse succeeds exactly when the
candidate payload has length 16 after lower-casing and every lower-cased
character is a decimal digit or one of the letters a to f; any accepted
response carries the candidate itself keyed by the response key, so no
payload violating the validation is ever emitted. -/
theorem c4_downlink_validator (device0 : Option JSStr) (ackRaw : Option JSValue)
    (result : JSStr)
    (hack : ¬(ackRaw = some (.bool false) ∨ ackRaw = some (.str (strToCodes "false")))) :
    ((∃ r, getResponse device0 ackRaw result = .ok r) ↔
      ((jsToLower result).length = 16 ∧
        ∀ c ∈ jsToLower result, (48 ≤ c ∧ c ≤ 57) ∨ (97 ≤ c ∧ c ≤ 102)))
    ∧ (∀ r, getResponse device0 ackRaw result = .ok r →
        r = [(responseKey device0, .downlinkData result)]) := by
  have hlen : (jsToLower result).length = result.length := List.length_map _ _
  simp only [getResponse]
  rw [if_neg hack]
  by_cases hl : result.length ≠ 16
  · rw [if_pos hl]
    refine ⟨⟨fun ⟨r, hr⟩ => absurd hr (by simp), fun ⟨h16, _⟩ => absurd h16 (by omega)⟩,
      fun r hr => absurd hr (by simp)⟩
  · rw [if_neg hl]
    cases hf : (jsToLower result).find? badHexChar with
    | some c =>
      have hbad : badHexChar c = true := List.find?_some hf
      have hmem : c ∈ jsToLower result := List.mem_of_find?_eq_some hf
      refine ⟨⟨fun ⟨r, hr⟩ => absurd hr (by simp), fun ⟨_, hall⟩ => ?_⟩,
        fun r hr => absurd hr (by simp)⟩
      have := (badHexChar_false_iff c).mpr (hall c hmem)
      rw [this] at hbad
      exact absurd hbad (by simp)
    | none =>
      have hall : ∀ c ∈ jsToLower result, (48 ≤ c ∧ c ≤ 57) ∨ (97 ≤ c ∧ c ≤ 102) := by
        intro c hc
        exact (badHexChar_false_iff c).mp
          (Bool.not_eq_true _ ▸ (List.find?_eq_none.mp hf c hc))
      refine ⟨⟨fun _ => ⟨by omega, hall⟩, fun _ => ⟨_, rfl⟩⟩, fun r hr => ?_⟩
      injection hr with hr'
      rw [← hr']

/-- C4 (witness): the hardcoded payload 0123456789abcdef with an absent
ack field is accepted. -/
theorem c4_witness :
    ((∃ r, getResponse none none hardcodedResult = .ok r) ↔
      ((jsToLower hardcodedResult).length = 16 ∧
        ∀ c ∈ jsToLower hardcodedResult, (48 ≤ c ∧ c ≤ 57) ∨ (97 ≤ c ∧ c ≤ 102)))
    ∧ (∀ r, getResponse none none hardcodedResult = .ok r →
        r = [(responseKey none, .downlinkData hardcodedResult)]) :=
  c4_downlink_validator none none hardcodedResult (by decide)

/-- C8: every response composed by getResponse is a mapping with exactly
one entry, keyed by the device id when it is known (a non-empty string)
and by the missing_device sentinel when the device id is null or
empty. -/
theorem c8_response_single_entry (device0 : Option JSStr) (ackRaw : Option JSValue)
    (result : JSStr) (r : List (JSStr × DownlinkValue))
    (h : getResponse device0 ackRaw result = .ok r) :
    (∃ v, r = [(responseKey device0, v)])
    ∧ (∀ s, device0 = some s → ¬ s.isEmpty → responseKey device0 = s)
    ∧ (device0 = none → responseKey device0 = strToCodes "missing_device")
    ∧ (device0 = some [] → responseKey device0 = strToCodes "missing_device") := by
  refine ⟨?_, fun s hs hne => ?_, fun h0 => ?_, fun h0 => ?_⟩
  · simp only [getResponse] at h
    split_ifs at h with h1 h2
    · injection h with h'
      exact ⟨.noData, h'.symm⟩
    · cases hf : (jsToLower result).find? badHexChar with
      | some c =>
        rw [hf] at h
        exact Except.noConfusion h
      | none =>
        rw [hf] at h
        injection h with h'
        exact ⟨.downlinkData result, h'.symm⟩
  · subst hs
    simp [responseKey, hne]
  · subst h0
    rfl
  · subst h0
    rfl

/-- C8 (witness): the composed response at device id 1A2345 with ack
false has the single noData entry keyed by that id. -/
theorem c8_witness :
    (∃ v, [((strToCodes "1A2345" : JSStr), DownlinkValue.noData)] =
        [(responseKey (some (strToCodes "1A2345")), v)])
    ∧ (∀ s, some (strToCodes "1A2345") = some s → ¬ List.isEmpty s →
        responseKey (some (strToCodes "1A2345")) = s)
    ∧ (some (strToCodes "1A2345") = (none : Option JSStr) →
        responseKey (some (strToCodes "1A2345")) = strToCodes "missing_device")
    ∧ (some (strToCodes "1A2345") = some ([] : JSStr) →
        responseKey (some (strToCodes "1A2345")) = strToCodes "missing_device") :=
  c8_response_single_entry (some (strToCodes "1A2345"))
    (some (.str (strToCodes "false"))) hardcodedResult
    [((strToCodes "1A2345" : JSStr), DownlinkValue.noData)] rfl

/-- C6 (counterexample): a duplicate field present as the empty string is
falsy, so the normalizer leaves it untouched instead of mapping it to the
boolean false as the claim requires for every other present value. -/
theorem c6_counterexample :
    objGet (objSet objEmpty "duplicate" (.str [])) "duplicate" = some (.str [])
    ∧ objGet (parseSIGFOXMessagePure (objSet objEmpty "duplicate" (.str []))) "duplicate" =
        some (.str [])
    ∧ objGet (parseSIGFOXMessagePure (objSet objEmpty "duplicate" (.str []))) "duplicate" ≠
        some (.bool false) := by
  refine ⟨by decide, by decide, by decide⟩

/-- C6 (amended): for the boolean fields duplicate, ack and longPolling,
the string true maps to the boolean true and every other present
non-empty string maps to the boolean false; an absent field stays absent
and a present empty string (falsy) is left untouched. -/
theorem c6_amended (b : JSObj) (k : String)
    (hk : k = "duplicate" ∨ k = "ack" ∨ k = "longPolling") :
    (objGet b k = some (.str (strToCodes "true")) →
        objGet (parseSIGFOXMessagePure b) k = some (.bool true))
    ∧ (∀ s : JSStr, ¬ s.isEmpty → s ≠ strToCodes "true" → objGet b k = some (.str s) →
        objGet (parseSIGFOXMessagePure b) k = some (.bool false))
    ∧ (objGet b k = none → objGet (parseSIGFOXMessagePure b) k = none)
    ∧ (objGet b k = some (.str []) →
        objGet (parseSIGFOXMessagePure b) k = some (.str [])) := by
  have hne1 : k ≠ "time" := by rcases hk with h | h | h <;> subst h <;> decide
  have hne2 : k ≠ "timestamp" := by rcases hk with h | h | h <;> subst h <;> decide
  have hne3 : k ≠ "baseStationTime" := by rcases hk with h | h | h <;> subst h <;> decide
  have htb : objGet (timeBlockObj b) k = objGet b k :=
    objGet_timeBlockObj_ne b k hne1 hne2 hne3
  have hcf : objGet (convertFields (timeBlockObj b)) k =
      match objGet (timeBlockObj b) k with
      | some v => if jsTruthyV v then some (boolConv v) else some v
      | none => none := by
    rcases hk with h | h | h <;> subst h
    · exact objGet_convertFields_duplicate _
    · exact objGet_convertFields_ack _
    · exact objGet_convertFields_longPolling _
  rw [htb] at hcf
  refine ⟨fun h => ?_, fun s hs hst h => ?_, fun h => ?_, fun h => ?_⟩
  · unfold parseSIGFOXMessagePure
    rw [hcf, h]
    simp only [jsTruthyV, boolConv, parseBool]
    have hne : (strToCodes "true").isEmpty = false := by decide
    simp [hne]
  · unfold parseSIGFOXMessagePure
    rw [hcf, h]
    have hsf : s.isEmpty = false := by
      cases he : s.isEmpty
      · rfl
      · exact absurd he hs
    simp [jsTruthyV, boolConv, parseBool, hsf, hst]
  · unfold parseSIGFOXMessagePure
    rw [hcf, h]
  · unfold parseSIGFOXMessagePure
    rw [hcf, h]
    simp [jsTruthyV]

/-- C6 (witness): the amended statement evaluated on a body holding the
ack field. -/
theorem c6_witness :
    (objGet (objSet objEmpty "ack" (.str (strToCodes "true"))) "ack" =
        some (.str (strToCodes "true")) →
      objGet (parseSIGFOXMessagePure (objSet objEmpty "ack" (.str (strToCodes "true")))) "ack" =
        some (.bool true))
    ∧ (∀ s : JSStr, ¬ s.isEmpty → s ≠ strToCodes "true" →
        objGet (objSet objEmpty "ack" (.str (strToCodes "true"))) "ack" = some (.str s) →
        objGet (parseSIGFOXMessagePure (objSet objEmpty "ack" (.str (strToCodes "true")))) "ack" =
          some (.bool false))
    ∧ (objGet (objSet objEmpty "ack" (.str (strToCodes "true"))) "ack" = none →
        objGet (parseSIGFOXMessagePure (objSet objEmpty "ack" (.str (strToCodes "true")))) "ack" =
          none)
    ∧ (objGet (objSet objEmpty "ack" (.str (strToCodes "true"))) "ack" = some (.str []) →
        objGet (parseSIGFOXMessagePure (objSet objEmpty "ack" (.str (strToCodes "true")))) "ack" =
          some (.str [])) :=
  c6_amended (objSet objEmpty "ack" (.str (strToCodes "true"))) "ack" (Or.inr (Or.inl rfl))

/-- C7 (counterexample): a time field present as the empty string is
falsy, so the time block is skipped and the output of the normalizer
still contains the time key, contradicting the claim that the output
never contains one. -/
theorem c7_counterexample :
    objGet (objSet objEmpty "time" (.str [])) "time" = some (.str [])
    ∧ objGet (parseSIGFOXMessagePure (objSet objEmpty "time" (.str []))) "time" =
        some (.str [])
    ∧ objGet (parseSIGFOXMessagePure (objSet objEmpty "time" (.str []))) "time" ≠ none := by
  refine ⟨by decide, by decide, by decide⟩

/-- C7 (amended): the field normalizer never mutates the input object
(every write of the imperative code targets the clone allocated by its
first statement, and the heap cell of the input is unchanged), the result
object is the pure normalization of the input, and the output has no time
key whenever the input time field is absent or a non-empty string; only a
present empty-string time survives into the output. -/
theorem c7_amended :
    (∀ (h0 : Heap) (body0 r : Nat), r < List.length h0 →
        heapGet (parseSIGFOXMessage h0 body0).1 r = heapGet h0 r)
    ∧ (∀ (h0 : Heap) (body0 : Nat),
        heapGet (parseSIGFOXMessage h0 body0).1 (parseSIGFOXMessage h0 body0).2 =
          parseSIGFOXMessagePure (heapGet h0 body0))
    ∧ (∀ b : JSObj, objGet b "time" = none →
        objGet (parseSIGFOXMessagePure b) "time" = none)
    ∧ (∀ (b : JSObj) (s : JSStr), objGet b "time" = some (.str s) → ¬ s.isEmpty →
        objGet (parseSIGFOXMessagePure b) "time" = none)
    ∧ (∀ b : JSObj, objGet b "time" = some (.str []) →
        objGet (parseSIGFOXMessagePure b) "time" = some (.str [])) := by
  refine ⟨parseSIGFOXMessage_frame, parseSIGFOXMessage_out, fun b h => ?_,
    fun b s h hs => ?_, fun b h => ?_⟩
  · unfold parseSIGFOXMessagePure
    rw [objGet_convertFields_ne _ _ (by decide) (by decide) (by decide) (by decide)
      (by decide) (by decide) (by decide) (by decide) (by decide)]
    rw [timeBlockObj_none b h]
    exact h
  · unfold parseSIGFOXMessagePure
    rw [objGet_convertFields_ne _ _ (by decide) (by decide) (by decide) (by decide)
      (by decide) (by decide) (by decide) (by decide) (by decide)]
    refine objGet_timeBlockObj_time b _ h ?_
    have hsf : s.isEmpty = false := by
      cases he : s.isEmpty
      · rfl
      · exact absurd he hs
    simp [jsTruthyV, hsf]
  · unfold parseSIGFOXMessagePure
    rw [objGet_convertFields_ne _ _ (by decide) (by decide) (by decide) (by decide)
      (by decide) (by decide) (by decide) (by decide) (by decide)]
    rw [timeBlockObj_not_truthy b _ h (by decide)]
    exact h

/-- C7 (witness): the amended statement evaluated on a singleton heap and
concrete bodies. -/
theorem c7_witness :
    heapGet (parseSIGFOXMessage [objSet objEmpty "time" (.str (strToCodes "1"))] 0).1 0 =
      heapGet [objSet objEmpty "time" (.str (strToCodes "1"))] 0
    ∧ heapGet (parseSIGFOXMessage [objSet objEmpty "time" (.str (strToCodes "1"))] 0).1
        (parseSIGFOXMessage [objSet objEmpty "time" (.str (strToCodes "1"))] 0).2 =
      parseSIGFOXMessagePure (heapGet [objSet objEmpty "time" (.str (strToCodes "1"))] 0)
    ∧ objGet (parseSIGFOXMessagePure objEmpty) "time" = none
    ∧ objGet (parseSIGFOXMessagePure (objSet objEmpty "time" (.str (strToCodes "1")))) "time" =
        none
    ∧ objGet (parseSIGFOXMessagePure (objSet objEmpty "timestamp" (.str []))) "time" = none :=
  ⟨c7_amended.1 _ 0 0 (by decide), c7_amended.2.1 _ 0, c7_amended.2.2.1 _ rfl,
    c7_amended.2.2.2.1 (objSet objEmpty "time" (.str (strToCodes "1"))) (strToCodes "1")
      (by decide) (by decide),
    c7_amended.2.2.1 _ rfl⟩

/-- C10: when the time field is a non-empty string that does not parse as
a base-10 integer, the normalized body carries the NaN sentinel as
baseStationTime, the freshness comparison of an NaN age against 300000 is
false, and task always proceeds to the queue dispatch with one publish
attempt per resolved target and a dispatched envelope, whatever the clock
value is. -/
theorem c10_nan_time_bypasses_guard (b : JSObj) (s : JSStr)
    (hv : objGet b "time" = some (.str s)) (hs : ¬ s.isEmpty)
    (hnan : parseIntCodes s = .nan)
    (gc aws : Bool) (now : Int) (pub : QueueTarget → PubOutcome)
    (hist : Envelope → Envelope) (device dtype : Option JSStr) (query : JSObj)
    (rootTraceId : JSStr) :
    objGet (parseSIGFOXMessagePure b) "baseStationTime" = some (.num .nan)
    ∧ jsGt (jsSub (.int now) (jsMul JSNum.nan (.int 1000))) (.int (5 * 60 * 1000)) = false
    ∧ ∃ attempts env,
        task gc aws now pub hist device dtype b query rootTraceId = (attempts, .ok env)
        ∧ attempts.map (fun a => a.1) = queuesFor gc aws device dtype
        ∧ env.isDispatched = true := by
  have hsf : s.isEmpty = false := by
    cases he : s.isEmpty
    · rfl
    · exact absurd he hs
  have hbst : objGet (parseSIGFOXMessagePure b) "baseStationTime" = some (.num .nan) := by
    unfold parseSIGFOXMessagePure
    rw [objGet_convertFields_ne _ _ (by decide) (by decide) (by decide) (by decide)
      (by decide) (by decide) (by decide) (by decide) (by decide)]
    rw [objGet_timeBlockObj_bst b _ hv (by simp [jsTruthyV, hsf])]
    simp [parseIntJS, hnan]
  refine ⟨hbst, rfl, ?_⟩
  have hguard : freshnessGuard aws now (parseSIGFOXMessagePure b) = .ok () := by
    unfold freshnessGuard
    rw [hbst]
    simp [jsTruthyV, jsTruthyNum]
  simp only [task]
  rw [hguard]
  obtain ⟨attempts, env, h1, _, h2, _, h4⟩ :=
    saveMessage_spec pub hist gc aws device dtype (parseSIGFOXMessagePure b) query rootTraceId
  rw [h1]
  exact ⟨attempts, env, rfl, h2, h4⟩

/-- C10 (witness): the statement at the unparsable time string abc and a
far-future clock value. -/
theorem c10_witness :
    objGet (parseSIGFOXMessagePure (objSet objEmpty "time" (.str (strToCodes "abc"))))
        "baseStationTime" = some (.num .nan)
    ∧ jsGt (jsSub (.int 999999999999) (jsMul JSNum.nan (.int 1000)))
        (.int (5 * 60 * 1000)) = false
    ∧ ∃ attempts env,
        task false true 999999999999 (fun _ => PubOutcome.success) id none none
            (objSet objEmpty "time" (.str (strToCodes "abc"))) objEmpty [] =
          (attempts, .ok env)
        ∧ attempts.map (fun a => a.1) = queuesFor false true none none
        ∧ env.isDispatched = true :=
  c10_nan_time_bypasses_guard (objSet objEmpty "time" (.str (strToCodes "abc")))
    (strToCodes "abc") (by decide) (by decide) (by decide) false true 999999999999
    (fun _ => PubOutcome.success) id none none objEmpty []

end SigfoxAws
